import Mathlib

/-!
# MiniballSort: `Reaction.hh`

A shallow embedding of the inline members of `Particle` and `Reaction`
declared in `include/Reaction.hh`, followed by theorems about them.

Conventions of the embedding:

* `double` and `float` are modelled by an arbitrary field `K`; the theorems
  instantiate `K` with `ℝ` (and `ℚ` where a definition is only evaluated).
  Rounding is therefore not modelled.
* `int` is modelled by `ℤ`. The only integer operation of the header is the
  subtraction `A-Z`, whose overflow is undefined behaviour in C++ and has
  no value to model.
* `unsigned char` indices are modelled by their value as a natural number.
* `TMath::Sqrt` belongs to ROOT, not to this repository: every definition
  that calls it takes the square root function as its first argument
  `Sqrt`. `TMath::Power(x, 2.0)` is written `x ^ 2`.
* A member function that can leave through an exception or through
  undefined behaviour returns an `Outcome`.
* The conversion of an `int` to `std::size_t` is the reduction modulo `2^64`;
  a theorem that depends on it assumes that the `int` lies between `-2^31`
  and `2^31 - 1`.
* `Reaction::GetCDVector` and `Reaction::GetParticleVector` are declared in
  the header and defined elsewhere; they are modelled from the
  specification, the strip geometry being a parameter.
-/

namespace MiniballSort

/-! ## Outcomes of a call -/

/-- How a call of a member function ends: it returns a value, it throws
`std::out_of_range` (from `std::vector::at`), or it runs into undefined
behaviour (an unchecked `operator[]` past the end of a `std::vector`). -/
inductive Outcome (α : Type) where
  | ok (v : α)
  | out_of_range
  | undefined
  deriving DecidableEq, Repr

/-- The value of a `double` expression: a number of the model, or one of the
IEEE values `±inf`, `NaN` that a division by zero or the square root of a
negative number produces. -/
inductive DoubleVal (K : Type) where
  | finite (x : K)
  | nonfinite
  deriving DecidableEq, Repr

/-- The call `v.at(i)` on a `std::vector`: bounds-checked access. -/
def Outcome.vectorAt {α : Type} (v : List α) (i : Nat) : Outcome α :=
  match v.get? i with
  | some x => Outcome.ok x
  | none => Outcome.out_of_range

/-- The expression `v[i]` on a `std::vector`: access without a bounds check. -/
def Outcome.vectorIndex {α : Type} (v : List α) (i : Nat) : Outcome α :=
  match v.get? i with
  | some x => Outcome.ok x
  | none => Outcome.undefined

/-- Apply a function to the value of a call that returned. -/
def Outcome.map {α β : Type} (f : α → β) : Outcome α → Outcome β
  | Outcome.ok v => Outcome.ok (f v)
  | Outcome.out_of_range => Outcome.out_of_range
  | Outcome.undefined => Outcome.undefined

/-- The division `x / y` of two `double`s. -/
def DoubleVal.div {K : Type} [Field K] [DecidableEq K] (x y : K) : DoubleVal K :=
  if y = 0 then DoubleVal.nonfinite else DoubleVal.finite (x / y)

/-! ## Constants -/

section Constants

variable (K : Type) [Field K]

/-- Mass of the proton in keV/c^2. -/
def p_mass : K := 938272.08816

/-- Mass of the neutron in keV/c^2. -/
def n_mass : K := 939565.42052

/-- Atomic mass unit in keV/c^2. -/
def u_mass : K := 931494.10242

end Constants

/-! ## `Particle` -/

/-- The data members of `class Particle`. -/
structure Particle (K : Type) where
  A : Int
  Z : Int
  bindingE : K
  Ecm_tot : K
  Elab : K
  ThetaCM : K
  ThetaLab : K
  Ex : K

namespace Particle

variable {K : Type} [Field K]

/-- Member `GetA`. -/
def GetA (p : Particle K) : Int := p.A

/-- Member `GetZ`. -/
def GetZ (p : Particle K) : Int := p.Z

/-- Member `GetN`. -/
def GetN (p : Particle K) : Int := p.A - p.Z

/-- Member `GetBindingEnergy`. -/
def GetBindingEnergy (p : Particle K) : K := p.bindingE

/-- Member `GetMass`: the mass in keV/c^2. -/
def GetMass (p : Particle K) : K :=
  let mass : K := (p.GetN : K) * n_mass K
  let mass : K := mass + (p.GetZ : K) * p_mass K
  let mass : K := mass - (p.GetA : K) * p.bindingE
  mass

/-- Member `GetMass_u`: the mass in u. -/
def GetMass_u (p : Particle K) : K := p.GetMass / u_mass K

/-- Member `GetEnergyLab`. -/
def GetEnergyLab (p : Particle K) : K := p.Elab

/-- Member `GetEnergyTotLab`. -/
def GetEnergyTotLab (p : Particle K) : K := p.GetMass + p.GetEnergyLab

/-- Member `GetEnergyTotCM`. -/
def GetEnergyTotCM (p : Particle K) : K := p.Ecm_tot

/-- Member `GetMomentumLab`. -/
def GetMomentumLab (Sqrt : K → K) (p : Particle K) : K :=
  Sqrt (p.GetEnergyTotLab ^ 2 - p.GetMass ^ 2)

/-- Member `GetMomentumCM`. -/
def GetMomentumCM (Sqrt : K → K) (p : Particle K) : K :=
  Sqrt (p.GetEnergyTotCM ^ 2 - p.GetMass ^ 2)

/-- Member `GetGamma`. -/
def GetGamma (p : Particle K) : K := p.GetEnergyTotLab / p.GetMass

/-- Member `GetThetaCM`. -/
def GetThetaCM (p : Particle K) : K := p.ThetaCM

/-- Member `GetThetaLab`. -/
def GetThetaLab (p : Particle K) : K := p.ThetaLab

/-- Member `GetEx`. -/
def GetEx (p : Particle K) : K := p.Ex

end Particle

/-! ## Collaborators of `Reaction` -/

/-- The part of `class MiniballGeometry` (declared in `MiniballGeometry.hh`)
that `Reaction.hh` calls: the segment angle tables of one cluster, taken
as given functions of the crystal and segment numbers. -/
structure MiniballGeometry (K : Type) where
  GetSegTheta : Nat → Nat → K
  GetSegPhi : Nat → Nat → K

/-- The part of `class Settings` (declared in `Settings.hh`) that
`Reaction.hh` calls: the detector counts. -/
structure Settings where
  GetNumberOfCDDetectors : Nat
  GetNumberOfCDPStrips : Nat

/-! ## `Reaction` -/

/-- The data members of `class Reaction` (the cut files and their ROOT
handles apart). -/
structure Reaction (K : Type) where
  fInputFile : String
  set : Settings
  ame_be : List (String × K)
  Beam : Particle K
  Target : Particle K
  Ejectile : Particle K
  Recoil : Particle K
  Eb : K
  EBIS_On : K
  EBIS_Off : K
  x_offset : K
  y_offset : K
  z_offset : K
  cd_dist : List K
  cd_offset : List K
  mb_geo : List (MiniballGeometry K)
  mb_theta : List K
  mb_phi : List K
  mb_alpha : List K
  mb_r : List K

namespace Reaction

variable {K : Type} [Field K]

/-- Member `GetCDDistance`. -/
def GetCDDistance (r : Reaction K) (det : Nat) : Outcome K :=
  if det < r.cd_dist.length then Outcome.vectorAt r.cd_dist det
  else Outcome.ok 0

/-- Member `GetCDPhiOffset`. -/
def GetCDPhiOffset (r : Reaction K) (det : Nat) : Outcome K :=
  if det < r.cd_offset.length then Outcome.vectorAt r.cd_offset det
  else Outcome.ok 0

/-- Member `GetGammaTheta( clu, cry, seg )`. -/
def GetGammaTheta (r : Reaction K) (clu cry seg : Nat) : Outcome K :=
  (Outcome.vectorIndex r.mb_geo clu).map (fun g => g.GetSegTheta cry seg)

/-- Member `GetGammaPhi( clu, cry, seg )`. -/
def GetGammaPhi (r : Reaction K) (clu cry seg : Nat) : Outcome K :=
  (Outcome.vectorIndex r.mb_geo clu).map (fun g => g.GetSegPhi cry seg)

/-- Member `GetQvalue`. -/
def GetQvalue (r : Reaction K) : K :=
  r.Beam.GetMass + r.Target.GetMass - r.Ejectile.GetMass - r.Recoil.GetMass

/-- Member `GetEnergyTotLab`. -/
def GetEnergyTotLab (r : Reaction K) : K :=
  r.Beam.GetEnergyTotLab + r.Target.GetEnergyTotLab

/-- Member `GetEnergyTotCM`. -/
def GetEnergyTotCM (Sqrt : K → K) (r : Reaction K) : K :=
  let etot : K := r.Beam.GetMass ^ 2
  let etot : K := etot + r.Target.GetMass ^ 2
  let etot : K := etot + 2 * r.Beam.GetEnergyTotLab * r.Target.GetMass
  let etot : K := Sqrt etot
  etot

/-- Member `GetBeta`. -/
def GetBeta (Sqrt : K → K) (r : Reaction K) : K :=
  Sqrt (2 * r.Beam.GetEnergyLab / r.Beam.GetMass)

/-- Member `GetGamma`. -/
def GetGamma (Sqrt : K → K) (r : Reaction K) : K :=
  1 / Sqrt (1 - GetBeta Sqrt r ^ 2)

/-- Member `GetEBISOnTime`. -/
def GetEBISOnTime (r : Reaction K) : K := r.EBIS_On

/-- Member `GetEBISOffTime`. -/
def GetEBISOffTime (r : Reaction K) : K := r.EBIS_Off

/-- Member `GetEBISRatio`. The body has no `throw` and no bounds-checked
access, so the call always returns; the value is that of the `double`
division. -/
def GetEBISRatio [DecidableEq K] (r : Reaction K) : Outcome (DoubleVal K) :=
  Outcome.ok (DoubleVal.div r.EBIS_On (r.EBIS_Off - r.EBIS_On))

/-- The reaction read backwards: the pair (Beam, Target) exchanged with the
pair (Ejectile, Recoil), every other member kept. -/
def exchangeRoles (r : Reaction K) : Reaction K :=
  { r with Beam := r.Ejectile, Target := r.Recoil, Ejectile := r.Beam, Recoil := r.Target }

end Reaction

/-! ## Isotope label -/

/-- Element names, indexed by the atomic number. -/
def gElName : List String :=
  ["n", "H", "He", "Li", "Be", "B", "C", "N", "O", "F", "Ne", "Na", "Mg",
   "Al", "Si", "P", "S", "Cl", "Ar", "K", "Ca", "Sc", "Ti", "V", "Cr",
   "Mn", "Fe", "Co", "Ni", "Cu", "Zn", "Ga", "Ge", "As", "Se", "Br", "Kr",
   "Rb", "Sr", "Y", "Zr", "Nb", "Mo", "Tc", "Ru", "Rh", "Pd", "Ag", "Cd",
   "In", "Sn", "Sb", "Te", "I", "Xe", "Cs", "Ba", "La", "Ce", "Pr", "Nd",
   "Pm", "Sm", "Eu", "Gd", "Tb", "Dy", "Ho", "Er", "Tm", "Yb", "Lu", "Hf",
   "Ta", "W", "Re", "Os", "Ir", "Pt", "Au", "Hg", "Tl", "Pb", "Bi", "Po",
   "At", "Rn", "Fr", "Ra", "Ac", "Th", "Pa", "U", "Np", "Pu", "Am", "Cm",
   "Bk", "Cf", "Es", "Fm", "Md", "No", "Lr", "Rf", "Db", "Sg", "Bh", "Hs",
   "Mt", "Ds", "Rg", "Cn", "Nh", "Fl", "Ms", "Lv", "Ts", "Og", "Uue", "Ubn"]

/-- The conversion of an `int` to the 64-bit `std::size_t` that
`std::vector::at` takes: reduction modulo `2^64`. -/
def size_t_of_int (z : Int) : Nat := (z % 2 ^ 64).toNat

/-- The call `std::to_string( a )` on an `int`: the decimal digits, after a
minus sign for a negative number. -/
def to_string (a : Int) : String := toString a

/-- Member `Particle::GetIsotope`. -/
def Particle.GetIsotope {K : Type} (p : Particle K) : Outcome String :=
  (Outcome.vectorAt gElName (size_t_of_int p.Z)).map (fun el => to_string p.A ++ el)

/-! ## `double` operations with their exceptional values -/

/-- The call `TMath::Sqrt( x )` on a `double`: not a number for a negative
argument, the square root otherwise. -/
def DoubleVal.sqrt {K : Type} [LinearOrderedField K] (Sqrt : K → K) (x : K) : DoubleVal K :=
  if x < 0 then DoubleVal.nonfinite else DoubleVal.finite (Sqrt x)

/-- Member `Particle::GetMass_u`, its division carried out on `double`s. -/
def Particle.GetMass_u_double {K : Type} [Field K] [DecidableEq K] (p : Particle K) :
    DoubleVal K :=
  DoubleVal.div p.GetMass (u_mass K)

/-- Member `Particle::GetGamma`, its division carried out on `double`s. -/
def Particle.GetGamma_double {K : Type} [Field K] [DecidableEq K] (p : Particle K) :
    DoubleVal K :=
  DoubleVal.div p.GetEnergyTotLab p.GetMass

/-- Member `Particle::GetMomentumLab`, its square root carried out on
`double`s. -/
def Particle.GetMomentumLab_double {K : Type} [LinearOrderedField K] (Sqrt : K → K)
    (p : Particle K) : DoubleVal K :=
  DoubleVal.sqrt Sqrt (p.GetEnergyTotLab ^ 2 - p.GetMass ^ 2)

/-- Member `Particle::GetMomentumCM`, its square root carried out on
`double`s. -/
def Particle.GetMomentumCM_double {K : Type} [LinearOrderedField K] (Sqrt : K → K)
    (p : Particle K) : DoubleVal K :=
  DoubleVal.sqrt Sqrt (p.GetEnergyTotCM ^ 2 - p.GetMass ^ 2)

/-! ## Setters of `Particle` -/

namespace Particle

variable {K : Type}

/-- Member `SetA`. -/
def SetA (p : Particle K) (myA : Int) : Particle K := { p with A := myA }

/-- Member `SetZ`. -/
def SetZ (p : Particle K) (myZ : Int) : Particle K := { p with Z := myZ }

/-- Member `SetBindingEnergy`. -/
def SetBindingEnergy (p : Particle K) (myBE : K) : Particle K := { p with bindingE := myBE }

/-- Member `SetEnergyLab`. -/
def SetEnergyLab (p : Particle K) (myElab : K) : Particle K := { p with Elab := myElab }

/-- Member `SetEnergyTotCM`. -/
def SetEnergyTotCM (p : Particle K) (myEcm : K) : Particle K := { p with Ecm_tot := myEcm }

/-- Member `SetThetaCM`. -/
def SetThetaCM (p : Particle K) (mytheta : K) : Particle K := { p with ThetaCM := mytheta }

/-- Member `SetThetaLab`. -/
def SetThetaLab (p : Particle K) (mytheta : K) : Particle K := { p with ThetaLab := mytheta }

/-- Member `SetEx`. -/
def SetEx (p : Particle K) (myEx : K) : Particle K := { p with Ex := myEx }

end Particle

/-- One call of a setter of the event-by-event members of a `Particle`, with
its argument. -/
inductive KinematicSetter (K : Type) where
  | SetEnergyLab (myElab : K)
  | SetEnergyTotCM (myEcm : K)
  | SetThetaCM (mytheta : K)
  | SetThetaLab (mytheta : K)
  | SetEx (myEx : K)

/-- The particle after the call. -/
def KinematicSetter.apply {K : Type} : KinematicSetter K → Particle K → Particle K
  | KinematicSetter.SetEnergyLab v, p => p.SetEnergyLab v
  | KinematicSetter.SetEnergyTotCM v, p => p.SetEnergyTotCM v
  | KinematicSetter.SetThetaCM v, p => p.SetThetaCM v
  | KinematicSetter.SetThetaLab v, p => p.SetThetaLab v
  | KinematicSetter.SetEx v, p => p.SetEx v

/-- The four `Particle` members of a `Reaction`. -/
inductive Role where
  | Beam
  | Target
  | Ejectile
  | Recoil
  deriving DecidableEq, Repr

/-- The reaction after a setter call on one of its four particles. -/
def Reaction.applySetter {K : Type} (r : Reaction K) (role : Role) (s : KinematicSetter K) :
    Reaction K :=
  match role with
  | Role.Beam => { r with Beam := s.apply r.Beam }
  | Role.Target => { r with Target := s.apply r.Target }
  | Role.Ejectile => { r with Ejectile := s.apply r.Ejectile }
  | Role.Recoil => { r with Recoil := s.apply r.Recoil }

/-- The reaction after a sequence of setter calls, first call first. -/
def Reaction.applySetters {K : Type} (r : Reaction K) (calls : List (Role × KinematicSetter K)) :
    Reaction K :=
  calls.foldl (fun r' call => r'.applySetter call.1 call.2) r

/-! ## CD geometry -/

/-- The Cartesian components of ROOT's `TVector3`. -/
structure TVector3 (K : Type) where
  X : K
  Y : K
  Z : K

/-- Componentwise difference of two `TVector3`. -/
def TVector3.sub {K : Type} [Field K] (a b : TVector3 K) : TVector3 K :=
  { X := a.X - b.X, Y := a.Y - b.Y, Z := a.Z - b.Z }

/-- Componentwise opposite of a `TVector3`. -/
def TVector3.neg {K : Type} [Field K] (a : TVector3 K) : TVector3 K :=
  { X := -a.X, Y := -a.Y, Z := -a.Z }

/-- Continue with the value of a call that returned. -/
def Outcome.bind {α β : Type} (o : Outcome α) (f : α → Outcome β) : Outcome β :=
  match o with
  | Outcome.ok v => f v
  | Outcome.out_of_range => Outcome.out_of_range
  | Outcome.undefined => Outcome.undefined

/-- The loop `for( unsigned char i = 0; i < n; i++ ) body`, started at the
counter value `i` with the loop state `s`. The counter wraps at 256; `fuel`
bounds the number of tests of the loop condition and `none` means that it
ran out. A body that does not return normally ends the loop with its
outcome. -/
def forUChar {σ : Type} (n : Nat) (body : Nat → σ → Option (Outcome σ)) :
    Nat → Nat → σ → Option (Outcome σ)
  | 0, _, _ => none
  | fuel + 1, i, s =>
    if i < n then
      match body i s with
      | some (Outcome.ok s') => forUChar n body fuel ((i + 1) % 256) s'
      | other => other
    else some (Outcome.ok s)

namespace Reaction

variable {K : Type} [Field K]

/-- The target offsets as a vector. -/
def targetOffset (r : Reaction K) : TVector3 K :=
  { X := r.x_offset, Y := r.y_offset, Z := r.z_offset }

/-- Modelled from the spec: the body of `Reaction::GetCDVector( det, sec, pid,
nid )`, which `Reaction.hh` declares and does not define. It looks up the
distance and the phi offset of the detector through the bounds-checked
accessors, and from them and the sector and strip numbers computes the
position of the hit; that computation (strip geometry, rotation by the phi
offset, displacement to the CD) is the parameter `cdGeometry`. -/
def GetCDVector (cdGeometry : K → K → Nat → Nat → Nat → TVector3 K) (r : Reaction K)
    (det sec pid nid : Nat) : Outcome (TVector3 K) :=
  (r.GetCDDistance det).bind (fun dist =>
    (r.GetCDPhiOffset det).map (fun phi => cdGeometry dist phi sec pid nid))

/-- Modelled from the spec: the body of `Reaction::GetParticleVector( det,
sec, pid, nid )`, which `Reaction.hh` declares and does not define. It is
`GetCDVector` measured from the target position: the target offset is
subtracted. -/
def GetParticleVector (cdGeometry : K → K → Nat → Nat → Nat → TVector3 K) (r : Reaction K)
    (det sec pid nid : Nat) : Outcome (TVector3 K) :=
  (r.GetCDVector cdGeometry det sec pid nid).map (fun vec => vec.sub r.targetOffset)

/-- Member `GetNumberOfParticleThetas`; the product is returned as an
`unsigned int`. -/
def GetNumberOfParticleThetas (r : Reaction K) : Nat :=
  (r.set.GetNumberOfCDPStrips * r.set.GetNumberOfCDDetectors) % 2 ^ 32

/-- Member `GetParticleThetas`: the vector `cd_angles` at the `return`
statement. `Theta` is `TVector3::Theta` and `RadToDeg` is the value of
`TMath::RadToDeg()`, both of ROOT. -/
def GetParticleThetas (cdGeometry : K → K → Nat → Nat → Nat → TVector3 K)
    (Theta : TVector3 K → K) (RadToDeg : K) (fuel : Nat) (r : Reaction K) :
    Option (Outcome (List K)) :=
  forUChar r.set.GetNumberOfCDDetectors
    (fun i cd_angles =>
      forUChar r.set.GetNumberOfCDPStrips
        (fun j cd_angles =>
          some ((r.GetCDVector cdGeometry i 0 j 0).map
            (fun vec => cd_angles ++ [Theta vec * RadToDeg])))
        fuel 0 cd_angles)
    fuel 0 []

end Reaction

/-! ## Values used as concrete inputs -/

/-- A particle with the given `A`, `Z`, binding energy per nucleon and
laboratory energy, every other member zero. -/
def mkParticle {K : Type} [Field K] (A Z : Int) (bindingE Elab : K) : Particle K :=
  { A := A, Z := Z, bindingE := bindingE, Ecm_tot := 0, Elab := Elab,
    ThetaCM := 0, ThetaLab := 0, Ex := 0 }

/-- A reaction with the four given particles, no CD detector, no Miniball
cluster and every scalar member zero. -/
def mkReaction {K : Type} [Field K] (beam target ejectile recoil : Particle K) : Reaction K :=
  { fInputFile := "", set := { GetNumberOfCDDetectors := 0, GetNumberOfCDPStrips := 0 },
    ame_be := [], Beam := beam, Target := target, Ejectile := ejectile, Recoil := recoil,
    Eb := 0, EBIS_On := 0, EBIS_Off := 0, x_offset := 0, y_offset := 0, z_offset := 0,
    cd_dist := [], cd_offset := [], mb_geo := [], mb_theta := [], mb_phi := [],
    mb_alpha := [], mb_r := [] }

/-- Two protons at rest whose binding energy per nucleon, 1000000 keV, is
larger than the proton mass: both masses are negative. -/
def overboundReaction (K : Type) [Field K] : Reaction K :=
  mkReaction (mkParticle 1 1 1000000 0) (mkParticle 1 1 1000000 0)
    (mkParticle 1 1 1000000 0) (mkParticle 1 1 1000000 0)

/-- A proton at rest on a proton at rest. -/
def protonsAtRest (K : Type) [Field K] : Reaction K :=
  mkReaction (mkParticle 1 1 0 0) (mkParticle 1 1 0 0) (mkParticle 1 1 0 0) (mkParticle 1 1 0 0)

/-- A proton of 351852.03306 keV (three eighths of its mass) on a proton at
rest. -/
def fastProton (K : Type) [Field K] : Reaction K :=
  mkReaction (mkParticle 1 1 0 351852.03306) (mkParticle 1 1 0 0)
    (mkParticle 1 1 0 0) (mkParticle 1 1 0 0)

/-- A reaction whose EBIS window is 100 ns on, 1100 ns off. -/
def ebisWindow (K : Type) [Field K] : Reaction K :=
  { protonsAtRest K with EBIS_On := 100, EBIS_Off := 1100 }

/-- A reaction whose EBIS on and off times are both 100 ns. -/
def ebisDegenerate (K : Type) [Field K] : Reaction K :=
  { protonsAtRest K with EBIS_On := 100, EBIS_Off := 100 }

/-- A reaction with two CD detectors, at 30 and 32 mm, rotated by 0.25 and
0.5 rad. -/
def twoCDs (K : Type) [Field K] : Reaction K :=
  { protonsAtRest K with cd_dist := [30, 32], cd_offset := [0.25, 0.5] }

/-- A reaction with one Miniball cluster, whose segment angles are `cry + seg`
and `cry * seg`. -/
def oneCluster (K : Type) [Field K] : Reaction K :=
  { protonsAtRest K with
    mb_geo := [{ GetSegTheta := fun cry seg => (cry : K) + (seg : K),
                 GetSegPhi := fun cry seg => (cry : K) * (seg : K) }] }

/-- The nucleus 4He, at rest. -/
def helium4 (K : Type) [Field K] : Particle K := mkParticle 4 2 7073.915 0

/-- A particle of atomic number 121, one more than the last index of
`gElName`. -/
def element121 (K : Type) [Field K] : Particle K := mkParticle 300 121 0 0

/-- The nucleus 4He with a laboratory energy of 20000 keV. -/
def helium4Fast (K : Type) [Field K] : Particle K := mkParticle 4 2 7073.915 20000

/-- A proton whose binding energy per nucleon equals the proton mass: its mass
is 0. -/
def masslessProton (K : Type) [Field K] : Particle K := mkParticle 1 1 938272.08816 0

/-- A proton whose laboratory energy is -1 keV. -/
def negativeEnergyProton (K : Type) [Field K] : Particle K := mkParticle 1 1 0 (-1)

/-- A reaction with two CD detectors of three strips each and the target
offsets 1, 2 and 3 mm. -/
def twoByThree (K : Type) [Field K] : Reaction K :=
  { twoCDs K with
    set := { GetNumberOfCDDetectors := 2, GetNumberOfCDPStrips := 3 },
    x_offset := 1, y_offset := 2, z_offset := 3 }

/-- A stand-in for the strip geometry: the hit is put at the distance along z,
at the strip number along x and at the phi offset along y. -/
def flatGeometry (K : Type) [Field K] (dist phi : K) (_sec pid _nid : Nat) : TVector3 K :=
  { X := (pid : K), Y := phi, Z := dist }

/-- The nucleus 12C, at rest. -/
def carbon12 (K : Type) [Field K] : Particle K := mkParticle 12 6 7680.144 0

/-- Elastic scattering of 4He of 20000 keV on 12C. -/
def elasticAlphaCarbon (K : Type) [Field K] : Reaction K :=
  mkReaction (helium4Fast K) (carbon12 K) (helium4 K) (carbon12 K)

/-! ## Masses and Q-value -/

/-- C1: for every particle, `GetMass()` is
`(A - Z)*n_mass + Z*p_mass - A*bindingE` with `n_mass = 939565.42052` and
`p_mass = 938272.08816`; with `bindingE` set to 0 it is
`GetN()*n_mass + GetZ()*p_mass`. -/
theorem GetMass_formula (p : Particle ℝ) :
    p.GetMass
        = ((p.A : ℝ) - (p.Z : ℝ)) * 939565.42052 + (p.Z : ℝ) * 938272.08816
          - (p.A : ℝ) * p.bindingE
      ∧ ({ p with bindingE := 0 } : Particle ℝ).GetMass
        = (p.GetN : ℝ) * 939565.42052 + (p.GetZ : ℝ) * 938272.08816 := by
  constructor
  · simp only [Particle.GetMass, Particle.GetN, Particle.GetZ, Particle.GetA, n_mass, p_mass]
    push_cast
    ring
  · simp only [Particle.GetMass, Particle.GetN, Particle.GetZ, Particle.GetA, n_mass, p_mass]
    ring

/-- C2: `GetQvalue()` is the mass of Beam plus that of Target minus those of
Ejectile and Recoil, so it is positive exactly when the entrance masses
exceed the exit masses. -/
theorem GetQvalue_formula (r : Reaction ℝ) :
    r.GetQvalue
        = r.Beam.GetMass + r.Target.GetMass - r.Ejectile.GetMass - r.Recoil.GetMass
      ∧ (0 < r.GetQvalue
          ↔ r.Ejectile.GetMass + r.Recoil.GetMass < r.Beam.GetMass + r.Target.GetMass) := by
  refine ⟨rfl, ?_⟩
  unfold Reaction.GetQvalue
  constructor <;> intro h <;> linarith

/-- C3: exchanging (Beam, Target) with (Ejectile, Recoil) negates
`GetQvalue()`. -/
theorem GetQvalue_exchangeRoles (r : Reaction ℝ) :
    r.exchangeRoles.GetQvalue = - r.GetQvalue := by
  simp only [Reaction.GetQvalue, Reaction.exchangeRoles]
  ring

/-! ## Centre-of-mass energy -/

/-- The radicand of `GetEnergyTotCM()` is the square of the summed masses
plus twice the beam energy times the target mass. -/
theorem GetEnergyTotCM_eq_sqrt (r : Reaction ℝ) :
    r.GetEnergyTotCM Real.sqrt
      = Real.sqrt ((r.Beam.GetMass + r.Target.GetMass) ^ 2
          + 2 * r.Beam.GetEnergyLab * r.Target.GetMass) := by
  simp only [Reaction.GetEnergyTotCM, Particle.GetEnergyTotLab]
  congr 1
  ring

/-- The mass of a particle with `A = 1`, `Z = 1`. -/
theorem GetMass_mkParticle_one_one (b e : ℝ) :
    (mkParticle 1 1 b e).GetMass = 938272.08816 - b := by
  simp [mkParticle, Particle.GetMass, Particle.GetN, Particle.GetZ, Particle.GetA, p_mass]

/-- C4, as stated, fails: for two particles of negative mass and a beam at rest
`GetEnergyTotCM()` is a square root, hence not negative, while the summed
masses are negative. -/
theorem GetEnergyTotCM_at_rest_counterexample :
    (overboundReaction ℝ).Beam.GetEnergyLab = 0
      ∧ (overboundReaction ℝ).GetEnergyTotCM Real.sqrt
        ≠ (overboundReaction ℝ).Beam.GetMass + (overboundReaction ℝ).Target.GetMass := by
  refine ⟨rfl, ?_⟩
  have hneg : (overboundReaction ℝ).Beam.GetMass + (overboundReaction ℝ).Target.GetMass < 0 := by
    simp only [overboundReaction, mkReaction, GetMass_mkParticle_one_one]
    norm_num
  have hpos : 0 ≤ (overboundReaction ℝ).GetEnergyTotCM Real.sqrt := by
    rw [GetEnergyTotCM_eq_sqrt]
    exact Real.sqrt_nonneg _
  intro h
  rw [h] at hpos
  exact absurd hneg (not_lt.mpr hpos)

/-- C4, amended: for a beam at rest and summed masses of Beam and Target that
are not negative, `GetEnergyTotCM()` is `Beam.GetMass() + Target.GetMass()`. -/
theorem GetEnergyTotCM_at_rest (r : Reaction ℝ) (hE : r.Beam.GetEnergyLab = 0)
    (hM : 0 ≤ r.Beam.GetMass + r.Target.GetMass) :
    r.GetEnergyTotCM Real.sqrt = r.Beam.GetMass + r.Target.GetMass := by
  rw [GetEnergyTotCM_eq_sqrt, hE]
  simp only [mul_zero, zero_mul, add_zero]
  exact Real.sqrt_sq hM

/-- Witness of C4 amended: two protons at rest. -/
theorem GetEnergyTotCM_at_rest_witness :
    (protonsAtRest ℝ).Beam.GetEnergyLab = 0
      ∧ 0 ≤ (protonsAtRest ℝ).Beam.GetMass + (protonsAtRest ℝ).Target.GetMass
      ∧ (protonsAtRest ℝ).GetEnergyTotCM Real.sqrt
        = (protonsAtRest ℝ).Beam.GetMass + (protonsAtRest ℝ).Target.GetMass :=
  have hM : 0 ≤ (protonsAtRest ℝ).Beam.GetMass + (protonsAtRest ℝ).Target.GetMass := by
    simp only [protonsAtRest, mkReaction, GetMass_mkParticle_one_one]
    norm_num
  ⟨rfl, hM, GetEnergyTotCM_at_rest (protonsAtRest ℝ) rfl hM⟩

/-- C5: for a target at rest, a beam energy that is not negative and masses of
Beam and Target that are not negative, the square of `GetEnergyTotCM()` is
the square of the reaction's `GetEnergyTotLab()` minus the square of the
beam's `GetMomentumLab()`. -/
theorem GetEnergyTotCM_sq_invariant (r : Reaction ℝ) (hT : r.Target.GetEnergyLab = 0)
    (hE : 0 ≤ r.Beam.GetEnergyLab) (hB : 0 ≤ r.Beam.GetMass) (hM : 0 ≤ r.Target.GetMass) :
    r.GetEnergyTotCM Real.sqrt ^ 2
      = r.GetEnergyTotLab ^ 2 - r.Beam.GetMomentumLab Real.sqrt ^ 2 := by
  have h1 : 0 ≤ (r.Beam.GetMass + r.Target.GetMass) ^ 2
      + 2 * r.Beam.GetEnergyLab * r.Target.GetMass := by positivity
  have h2 : 0 ≤ (r.Beam.GetMass + r.Beam.GetEnergyLab) ^ 2 - r.Beam.GetMass ^ 2 := by
    have : 0 ≤ r.Beam.GetEnergyLab * (2 * r.Beam.GetMass + r.Beam.GetEnergyLab) := by
      positivity
    nlinarith
  rw [GetEnergyTotCM_eq_sqrt, Real.sq_sqrt h1]
  simp only [Particle.GetMomentumLab, Reaction.GetEnergyTotLab, Particle.GetEnergyTotLab]
  rw [Real.sq_sqrt h2, hT]
  ring

/-- Witness of C5: a proton of 351852.03306 keV on a proton at rest. -/
theorem GetEnergyTotCM_sq_invariant_witness :
    (fastProton ℝ).Target.GetEnergyLab = 0 ∧ 0 ≤ (fastProton ℝ).Beam.GetEnergyLab
      ∧ 0 ≤ (fastProton ℝ).Beam.GetMass ∧ 0 ≤ (fastProton ℝ).Target.GetMass
      ∧ (fastProton ℝ).GetEnergyTotCM Real.sqrt ^ 2
        = (fastProton ℝ).GetEnergyTotLab ^ 2 - (fastProton ℝ).Beam.GetMomentumLab Real.sqrt ^ 2 :=
  have hE : 0 ≤ (fastProton ℝ).Beam.GetEnergyLab := by
    simp only [fastProton, mkReaction, mkParticle, Particle.GetEnergyLab]
    norm_num
  have hB : 0 ≤ (fastProton ℝ).Beam.GetMass := by
    simp only [fastProton, mkReaction, GetMass_mkParticle_one_one]
    norm_num
  have hM : 0 ≤ (fastProton ℝ).Target.GetMass := by
    simp only [fastProton, mkReaction, GetMass_mkParticle_one_one]
    norm_num
  ⟨rfl, hE, hB, hM, GetEnergyTotCM_sq_invariant (fastProton ℝ) rfl hE hB hM⟩

/-! ## Beta and gamma -/

/-- C6: `Reaction::GetBeta()` is `sqrt(2*Beam.GetEnergyLab()/Beam.GetMass())`,
`Reaction::GetGamma()` is `1/sqrt(1 - GetBeta()^2)`, and the latter is not the
beam particle's `GetGamma()`: for a proton of three eighths of its mass on a
proton the two differ. -/
theorem GetBeta_GetGamma_formula :
    (∀ r : Reaction ℝ,
        r.GetBeta Real.sqrt = Real.sqrt (2 * r.Beam.GetEnergyLab / r.Beam.GetMass)
        ∧ r.GetGamma Real.sqrt = 1 / Real.sqrt (1 - r.GetBeta Real.sqrt ^ 2))
      ∧ (∃ r : Reaction ℝ, r.GetGamma Real.sqrt ≠ r.Beam.GetGamma) := by
  refine ⟨fun r => ⟨rfl, rfl⟩, fastProton ℝ, ?_⟩
  have hM : (fastProton ℝ).Beam.GetMass = 938272.08816 := by
    simp only [fastProton, mkReaction, GetMass_mkParticle_one_one]
    norm_num
  have hE : (fastProton ℝ).Beam.GetEnergyLab = 351852.03306 := rfl
  have hb : (fastProton ℝ).GetBeta Real.sqrt ^ 2 = 3 / 4 := by
    simp only [Reaction.GetBeta, hM, hE]
    rw [Real.sq_sqrt (by norm_num)]
    norm_num
  have hs : Real.sqrt (1 - 3 / 4) = 1 / 2 := by
    rw [show (1 : ℝ) - 3 / 4 = (1 / 2) ^ 2 by norm_num]
    exact Real.sqrt_sq (by norm_num)
  have hg : (fastProton ℝ).GetGamma Real.sqrt = 2 := by
    simp only [Reaction.GetGamma, hb, hs]
    norm_num
  have hp : (fastProton ℝ).Beam.GetGamma = 11 / 8 := by
    simp only [Particle.GetGamma, Particle.GetEnergyTotLab, hM, hE]
    norm_num
  rw [hg, hp]
  norm_num

/-! ## EBIS ratio -/

/-- C7: for `EBIS_On != EBIS_Off`, `GetEBISRatio()` returns
`EBIS_On / (EBIS_Off - EBIS_On)`; for 100 and 1100 it returns 0.1. -/
theorem GetEBISRatio_formula {K : Type} [LinearOrderedField K] (r : Reaction K)
    (h : r.EBIS_On ≠ r.EBIS_Off) :
    r.GetEBISRatio = Outcome.ok (DoubleVal.finite (r.EBIS_On / (r.EBIS_Off - r.EBIS_On)))
      ∧ ({ r with EBIS_On := 100, EBIS_Off := 1100 } : Reaction K).GetEBISRatio
        = Outcome.ok (DoubleVal.finite 0.1) := by
  constructor
  · have h0 : r.EBIS_Off - r.EBIS_On ≠ 0 := fun h0 => h (sub_eq_zero.mp h0).symm
    simp only [Reaction.GetEBISRatio, DoubleVal.div, if_neg h0]
  · have h0 : (1100 : K) - 100 ≠ 0 := by norm_num
    simp only [Reaction.GetEBISRatio, DoubleVal.div, if_neg h0]
    norm_num

/-- Witness of C7: on 100 ns, off 1100 ns, over the rationals. -/
theorem GetEBISRatio_formula_witness :
    (ebisWindow ℚ).EBIS_On ≠ (ebisWindow ℚ).EBIS_Off
      ∧ (ebisWindow ℚ).GetEBISRatio = Outcome.ok (DoubleVal.finite (1 / 10)) :=
  have h : (ebisWindow ℚ).EBIS_On ≠ (ebisWindow ℚ).EBIS_Off := by
    simp only [ebisWindow]
    norm_num
  ⟨h, by
    rw [(GetEBISRatio_formula (ebisWindow ℚ) h).1]
    simp only [ebisWindow]
    norm_num⟩

/-- C8, as stated, fails: with both EBIS times 100 ns the call returns, and
what it returns is the value of a division by zero. -/
theorem GetEBISRatio_degenerate_counterexample :
    (ebisDegenerate ℚ).EBIS_On = (ebisDegenerate ℚ).EBIS_Off
      ∧ (ebisDegenerate ℚ).GetEBISRatio = Outcome.ok DoubleVal.nonfinite
      ∧ (ebisDegenerate ℚ).GetEBISRatio ≠ Outcome.out_of_range
      ∧ (ebisDegenerate ℚ).GetEBISRatio ≠ Outcome.undefined := by
  refine ⟨rfl, ?_, ?_, ?_⟩ <;> simp [ebisDegenerate, Reaction.GetEBISRatio, DoubleVal.div]

/-- C8, amended: for `EBIS_On == EBIS_Off`, `GetEBISRatio()` reports no error;
it returns the value of the division by `EBIS_Off - EBIS_On = 0`, which is
not a finite number. -/
theorem GetEBISRatio_degenerate {K : Type} [LinearOrderedField K] (r : Reaction K)
    (h : r.EBIS_On = r.EBIS_Off) :
    r.GetEBISRatio = Outcome.ok DoubleVal.nonfinite := by
  have h0 : r.EBIS_Off - r.EBIS_On = 0 := by rw [h]; exact sub_self _
  simp only [Reaction.GetEBISRatio, DoubleVal.div, if_pos h0]

/-- Witness of C8 amended: both EBIS times 100 ns, over the reals. -/
theorem GetEBISRatio_degenerate_witness :
    (ebisDegenerate ℝ).EBIS_On = (ebisDegenerate ℝ).EBIS_Off
      ∧ (ebisDegenerate ℝ).GetEBISRatio = Outcome.ok DoubleVal.nonfinite :=
  ⟨rfl, GetEBISRatio_degenerate (ebisDegenerate ℝ) rfl⟩

/-! ## Detector lookups -/

/-- Bounds-checked access inside the bounds returns the element. -/
theorem vectorAt_of_lt {α : Type} (v : List α) (i : Nat) (h : i < v.length) :
    Outcome.vectorAt v i = Outcome.ok (v.get ⟨i, h⟩) := by
  unfold Outcome.vectorAt
  rw [List.get?_eq_get h]

/-- Unchecked access inside the bounds returns the element. -/
theorem vectorIndex_of_lt {α : Type} (v : List α) (i : Nat) (h : i < v.length) :
    Outcome.vectorIndex v i = Outcome.ok (v.get ⟨i, h⟩) := by
  unfold Outcome.vectorIndex
  rw [List.get?_eq_get h]

/-- Unchecked access outside the bounds is undefined behaviour. -/
theorem vectorIndex_of_le {α : Type} (v : List α) (i : Nat) (h : v.length ≤ i) :
    Outcome.vectorIndex v i = Outcome.undefined := by
  unfold Outcome.vectorIndex
  rw [List.get?_eq_none.mpr h]

/-- The CD lookups evaluated on two configured detectors: inside the bounds
the stored value, past the end 0. -/
theorem GetCDDistance_GetCDPhiOffset_twoCDs :
    (twoCDs ℚ).GetCDDistance 0 = Outcome.ok 30
      ∧ (twoCDs ℚ).GetCDDistance 1 = Outcome.ok 32
      ∧ (twoCDs ℚ).GetCDDistance 2 = Outcome.ok 0
      ∧ (twoCDs ℚ).GetCDDistance 255 = Outcome.ok 0
      ∧ (twoCDs ℚ).GetCDPhiOffset 1 = Outcome.ok 0.5
      ∧ (twoCDs ℚ).GetCDPhiOffset 2 = Outcome.ok 0 := by
  simp [twoCDs, Reaction.GetCDDistance, Reaction.GetCDPhiOffset, Outcome.vectorAt]

/-- The Miniball lookups evaluated on the one configured cluster. -/
theorem GetGammaTheta_GetGammaPhi_oneCluster :
    (oneCluster ℚ).GetGammaTheta 0 2 3 = Outcome.ok 5
      ∧ (oneCluster ℚ).GetGammaPhi 0 2 3 = Outcome.ok 6 := by
  simp [oneCluster, Reaction.GetGammaTheta, Reaction.GetGammaPhi, Outcome.vectorIndex,
    Outcome.map]
  norm_num

/-- C9: `GetCDDistance(det)` returns `cd_dist[det]` if `det < cd_dist.size()`
and 0 otherwise, `GetCDPhiOffset(det)` returns `cd_offset[det]` if
`det < cd_offset.size()` and 0 otherwise; both always return (no
`std::out_of_range`, no undefined behaviour), and one past the last
configured detector they return 0. -/
theorem GetCDDistance_GetCDPhiOffset_total {K : Type} [Field K] (r : Reaction K) (det : Nat) :
    r.GetCDDistance det
        = Outcome.ok (if h : det < r.cd_dist.length then r.cd_dist.get ⟨det, h⟩ else 0)
      ∧ r.GetCDPhiOffset det
        = Outcome.ok (if h : det < r.cd_offset.length then r.cd_offset.get ⟨det, h⟩ else 0)
      ∧ r.GetCDDistance r.cd_dist.length = Outcome.ok 0
      ∧ r.GetCDPhiOffset r.cd_offset.length = Outcome.ok 0 := by
  refine ⟨?_, ?_, ?_, ?_⟩
  · unfold Reaction.GetCDDistance
    by_cases h : det < r.cd_dist.length
    · rw [if_pos h, dif_pos h, vectorAt_of_lt _ _ h]
    · rw [if_neg h, dif_neg h]
  · unfold Reaction.GetCDPhiOffset
    by_cases h : det < r.cd_offset.length
    · rw [if_pos h, dif_pos h, vectorAt_of_lt _ _ h]
    · rw [if_neg h, dif_neg h]
  · unfold Reaction.GetCDDistance
    rw [if_neg (lt_irrefl _)]
  · unfold Reaction.GetCDPhiOffset
    rw [if_neg (lt_irrefl _)]

/-- For a cluster inside `mb_geo`, `GetGammaTheta` and `GetGammaPhi` return the
segment angles of that cluster. -/
theorem GetGammaTheta_GetGammaPhi_of_lt {K : Type} [Field K] (r : Reaction K)
    (clu cry seg : Nat) (h : clu < r.mb_geo.length) :
    r.GetGammaTheta clu cry seg = Outcome.ok ((r.mb_geo.get ⟨clu, h⟩).GetSegTheta cry seg)
      ∧ r.GetGammaPhi clu cry seg = Outcome.ok ((r.mb_geo.get ⟨clu, h⟩).GetSegPhi cry seg) := by
  simp only [Reaction.GetGammaTheta, Reaction.GetGammaPhi, vectorIndex_of_lt _ _ h,
    Outcome.map, and_self]

/-- For a cluster outside `mb_geo`, `GetGammaTheta` and `GetGammaPhi` are
undefined behaviour. -/
theorem GetGammaTheta_GetGammaPhi_of_le {K : Type} [Field K] (r : Reaction K)
    (clu cry seg : Nat) (h : r.mb_geo.length ≤ clu) :
    r.GetGammaTheta clu cry seg = Outcome.undefined
      ∧ r.GetGammaPhi clu cry seg = Outcome.undefined := by
  simp only [Reaction.GetGammaTheta, Reaction.GetGammaPhi, vectorIndex_of_le _ _ h,
    Outcome.map, and_self]

/-- C10 at its failing input: with one configured cluster, cluster number 1
is read past the end of `mb_geo`, so the calls do not return 0. -/
theorem GetGammaTheta_GetGammaPhi_past_end :
    (oneCluster ℚ).mb_geo.length ≤ 1
      ∧ (oneCluster ℚ).GetGammaTheta 1 0 0 = Outcome.undefined
      ∧ (oneCluster ℚ).GetGammaPhi 1 0 0 = Outcome.undefined
      ∧ (oneCluster ℚ).GetGammaTheta 1 0 0 ≠ Outcome.ok 0
      ∧ (oneCluster ℚ).GetGammaPhi 1 0 0 ≠ Outcome.ok 0 := by
  have h : (oneCluster ℚ).mb_geo.length ≤ 1 := by simp [oneCluster]
  have hu := GetGammaTheta_GetGammaPhi_of_le (oneCluster ℚ) 1 0 0 h
  refine ⟨h, hu.1, hu.2, ?_, ?_⟩
  · rw [hu.1]; exact fun h => Outcome.noConfusion h
  · rw [hu.2]; exact fun h => Outcome.noConfusion h

/-! ## Isotope labels -/

/-- Bounds-checked access outside the bounds throws. -/
theorem vectorAt_of_le {α : Type} (v : List α) (i : Nat) (h : v.length ≤ i) :
    Outcome.vectorAt v i = Outcome.out_of_range := by
  unfold Outcome.vectorAt
  rw [List.get?_eq_none.mpr h]

/-- An `int` that is not negative converts to itself. -/
theorem size_t_of_int_of_nonneg (z : Int) (h0 : 0 ≤ z) (h1 : z < 2 ^ 31) :
    size_t_of_int z = z.toNat := by
  unfold size_t_of_int
  rw [Int.emod_eq_of_lt h0 (by omega)]

/-- A negative `int` converts to a number of at least `2^63`. -/
theorem size_t_of_int_of_neg (z : Int) (h0 : z < 0) (h1 : -2 ^ 31 ≤ z) :
    2 ^ 63 ≤ size_t_of_int z := by
  unfold size_t_of_int
  omega

/-- The table has 121 entries. -/
theorem gElName_length : gElName.length = 121 := by decide

/-- What `GetIsotope()` does for an atomic number inside the table. -/
theorem GetIsotope_of_lt {K : Type} (p : Particle K) (h0 : 0 ≤ p.Z)
    (h1 : p.Z < (gElName.length : Int)) :
    ∃ el, gElName.get? p.Z.toNat = some el
      ∧ p.GetIsotope = Outcome.ok (to_string p.A ++ el) := by
  have hlt : p.Z.toNat < gElName.length := by omega
  refine ⟨gElName.get ⟨p.Z.toNat, hlt⟩, List.get?_eq_get hlt, ?_⟩
  unfold Particle.GetIsotope
  rw [size_t_of_int_of_nonneg p.Z h0 (by rw [gElName_length] at h1; omega),
    vectorAt_of_lt _ _ hlt]
  rfl

/-- What `GetIsotope()` does for an atomic number outside the table. -/
theorem GetIsotope_of_not_lt {K : Type} (p : Particle K) (hlo : -2 ^ 31 ≤ p.Z)
    (hhi : p.Z < 2 ^ 31) (h : p.Z < 0 ∨ (gElName.length : Int) ≤ p.Z) :
    p.GetIsotope = Outcome.out_of_range := by
  have hle : gElName.length ≤ size_t_of_int p.Z := by
    rw [gElName_length] at h ⊢
    rcases h with h | h
    · have := size_t_of_int_of_neg p.Z h hlo
      omega
    · rw [size_t_of_int_of_nonneg p.Z (by omega) hhi]
      omega
  unfold Particle.GetIsotope
  rw [vectorAt_of_le _ _ hle]
  rfl

/-- C11: for an atomic number that is a valid index of `gElName`,
`GetIsotope()` returns the decimal representation of `A` followed by
`gElName[Z]`; `gElName[0]` is "n", (A=4, Z=2) gives "4He" and (A=1, Z=0)
gives "1n". -/
theorem GetIsotope_label {K : Type} (p : Particle K) (h0 : 0 ≤ p.Z)
    (h1 : p.Z < (gElName.length : Int)) :
    (∃ el, gElName.get? p.Z.toNat = some el
        ∧ p.GetIsotope = Outcome.ok (to_string p.A ++ el))
      ∧ gElName.get? 0 = some "n"
      ∧ ({ p with A := 4, Z := 2 } : Particle K).GetIsotope = Outcome.ok "4He"
      ∧ ({ p with A := 1, Z := 0 } : Particle K).GetIsotope = Outcome.ok "1n" :=
  ⟨GetIsotope_of_lt p h0 h1, rfl, rfl, rfl⟩

/-- Witness of C11: the isotope label of 4He. -/
theorem GetIsotope_label_witness :
    0 ≤ (helium4 ℚ).Z ∧ (helium4 ℚ).Z < (gElName.length : Int)
      ∧ (helium4 ℚ).GetIsotope = Outcome.ok "4He" :=
  have h0 : 0 ≤ (helium4 ℚ).Z := by decide
  have h1 : (helium4 ℚ).Z < (gElName.length : Int) := by decide
  ⟨h0, h1, (GetIsotope_label (helium4 ℚ) h0 h1).2.2.1⟩

/-- C12: for a particle whose `Z` is a value of `int`, `GetIsotope()` throws
`std::out_of_range` exactly when `Z < 0` or `Z >= gElName.size()`, and
returns the label otherwise; a returned label always ends in an entry of the
table, and the call returns for every `Z` from 0 to 118. -/
theorem GetIsotope_out_of_range_iff {K : Type} (p : Particle K) (hlo : -2 ^ 31 ≤ p.Z)
    (hhi : p.Z < 2 ^ 31) :
    (p.GetIsotope = Outcome.out_of_range ↔ (p.Z < 0 ∨ (gElName.length : Int) ≤ p.Z))
      ∧ (¬ (p.Z < 0 ∨ (gElName.length : Int) ≤ p.Z) →
          ∃ el, gElName.get? p.Z.toNat = some el
            ∧ p.GetIsotope = Outcome.ok (to_string p.A ++ el))
      ∧ (∀ s, p.GetIsotope = Outcome.ok s → ∃ el ∈ gElName, s = to_string p.A ++ el)
      ∧ (0 ≤ p.Z ∧ p.Z ≤ 118 → ∃ s, p.GetIsotope = Outcome.ok s) := by
  have hin : ¬ (p.Z < 0 ∨ (gElName.length : Int) ≤ p.Z) →
      ∃ el, gElName.get? p.Z.toNat = some el
        ∧ p.GetIsotope = Outcome.ok (to_string p.A ++ el) := by
    intro h
    exact GetIsotope_of_lt p (by omega) (by omega)
  refine ⟨⟨?_, GetIsotope_of_not_lt p hlo hhi⟩, hin, ?_, ?_⟩
  · intro hout
    by_contra h
    obtain ⟨el, -, hok⟩ := hin h
    rw [hok] at hout
    exact Outcome.noConfusion hout
  · intro s hs
    by_cases h : p.Z < 0 ∨ (gElName.length : Int) ≤ p.Z
    · rw [GetIsotope_of_not_lt p hlo hhi h] at hs
      exact Outcome.noConfusion hs
    · obtain ⟨el, hel, hok⟩ := hin h
      rw [hok] at hs
      exact ⟨el, List.get?_mem hel, (Outcome.ok.inj hs).symm⟩
  · intro h
    have hlen := gElName_length
    obtain ⟨el, -, hok⟩ := hin (by omega)
    exact ⟨_, hok⟩

/-- Witness of C12: atomic number 121, one past the table. -/
theorem GetIsotope_out_of_range_iff_witness :
    -2 ^ 31 ≤ (element121 ℚ).Z ∧ (element121 ℚ).Z < 2 ^ 31
      ∧ (element121 ℚ).GetIsotope = Outcome.out_of_range :=
  have hlo : -2 ^ 31 ≤ (element121 ℚ).Z := by decide
  have hhi : (element121 ℚ).Z < 2 ^ 31 := by decide
  ⟨hlo, hhi, (GetIsotope_out_of_range_iff (element121 ℚ) hlo hhi).1.mpr
    (Or.inr (by rw [gElName_length]; decide))⟩

/-! ## The isotope label as a key -/

/-- The decimal digit characters are digits. -/
theorem digitChar_isDigit (k : Nat) (h : k < 10) : (Nat.digitChar k).isDigit = true := by
  interval_cases k <;> rfl

/-- The code of a decimal digit character. -/
theorem digitChar_toNat (k : Nat) (h : k < 10) : (Nat.digitChar k).toNat = 48 + k := by
  interval_cases k <;> rfl

/-- Printing a number in base 10 puts only digit characters in front of the
characters already there. -/
theorem toDigitsCore_isDigit (fuel : Nat) :
    ∀ (n : Nat) (ds : List Char), (∀ c ∈ ds, c.isDigit = true) →
      ∀ c ∈ Nat.toDigitsCore 10 fuel n ds, c.isDigit = true := by
  induction fuel with
  | zero => intro n ds h; simpa [Nat.toDigitsCore] using h
  | succ fuel ih =>
    intro n ds h
    have hd : ∀ c ∈ Nat.digitChar (n % 10) :: ds, c.isDigit = true := by
      intro c hc
      rcases List.mem_cons.mp hc with rfl | hc
      · exact digitChar_isDigit _ (Nat.mod_lt _ (by decide))
      · exact h c hc
    simp only [Nat.toDigitsCore]
    split
    · exact hd
    · exact ih _ _ hd

/-- Reading a list of digit characters back as a number, from the value `a`. -/
theorem foldl_toDigitsCore (fuel : Nat) :
    ∀ (n : Nat) (ds : List Char), n < fuel →
      (Nat.toDigitsCore 10 fuel n ds).foldl (fun a c => 10 * a + (c.toNat - 48)) 0
        = ds.foldl (fun a c => 10 * a + (c.toNat - 48)) n := by
  induction fuel with
  | zero => intro n ds h; omega
  | succ fuel ih =>
    intro n ds h
    have hk := digitChar_toNat (n % 10) (Nat.mod_lt _ (by decide))
    simp only [Nat.toDigitsCore]
    split
    · rename_i h0
      simp only [List.foldl_cons, hk]
      congr 1
      omega
    · rename_i h0
      rw [ih _ _ (by omega)]
      simp only [List.foldl_cons, hk]
      congr 1
      omega

/-- The decimal representation of a natural number consists of digits. -/
theorem repr_isDigit (n : Nat) : ∀ c ∈ (Nat.repr n).data, c.isDigit = true :=
  toDigitsCore_isDigit (n + 1) n [] (fun _ h => absurd h (List.not_mem_nil _))

/-- The decimal representation of a natural number reads back as the number. -/
theorem foldl_repr (n : Nat) :
    (Nat.repr n).data.foldl (fun a c => 10 * a + (c.toNat - 48)) 0 = n :=
  foldl_toDigitsCore (n + 1) n [] (Nat.lt_succ_self n)

/-- Two lists of digits, each followed by a list that starts with a character
that is not a digit, are equal only if the parts are. -/
theorem digits_append_inj :
    ∀ (l₁ l₂ : List Char) (c₁ c₂ : Char) (t₁ t₂ : List Char),
      (∀ c ∈ l₁, c.isDigit = true) → (∀ c ∈ l₂, c.isDigit = true) →
      c₁.isDigit = false → c₂.isDigit = false →
      l₁ ++ c₁ :: t₁ = l₂ ++ c₂ :: t₂ → l₁ = l₂ ∧ c₁ :: t₁ = c₂ :: t₂ := by
  intro l₁
  induction l₁ with
  | nil =>
    intro l₂ c₁ c₂ t₁ t₂ _ h₂ hc₁ _ h
    cases l₂ with
    | nil => exact ⟨rfl, h⟩
    | cons d l₂ =>
      have hd : c₁ = d := (List.cons.inj h).1
      have := h₂ d (List.mem_cons_self _ _)
      rw [← hd, hc₁] at this
      exact absurd this (by decide)
  | cons d l₁ ih =>
    intro l₂ c₁ c₂ t₁ t₂ h₁ h₂ hc₁ hc₂ h
    cases l₂ with
    | nil =>
      have hd : d = c₂ := (List.cons.inj h).1
      have := h₁ d (List.mem_cons_self _ _)
      rw [hd, hc₂] at this
      exact absurd this (by decide)
    | cons e l₂ =>
      obtain ⟨hde, htl⟩ := List.cons.inj h
      obtain ⟨hl, ht⟩ := ih l₂ c₁ c₂ t₁ t₂
        (fun c hc => h₁ c (List.mem_cons_of_mem _ hc))
        (fun c hc => h₂ c (List.mem_cons_of_mem _ hc)) hc₁ hc₂ htl
      exact ⟨by rw [hde, hl], ht⟩

/-- The entries of `gElName` are pairwise distinct. -/
theorem gElName_nodup : gElName.Nodup := by decide

/-- Every entry of `gElName` starts with a character that is not a digit. -/
theorem gElName_head_not_digit :
    ∀ el ∈ gElName, el.data.head?.map Char.isDigit = some false := by decide

/-- The decimal representation of an `int` that is not negative is that of
the natural number. -/
theorem to_string_of_nonneg (a : Int) (h : 0 ≤ a) : to_string a = Nat.repr a.toNat := by
  obtain ⟨m, rfl⟩ := Int.eq_ofNat_of_zero_le h
  rfl

/-- C13: for mass numbers of at least 1 and atomic numbers that are valid
indices of `gElName`, equal isotope labels come from equal `A` and equal
`Z`; the entries of `gElName` are pairwise distinct and none starts with a
digit. -/
theorem GetIsotope_injective {K : Type} (p q : Particle K) (hpA : 1 ≤ p.A) (hqA : 1 ≤ q.A)
    (hp0 : 0 ≤ p.Z) (hp1 : p.Z < (gElName.length : Int))
    (hq0 : 0 ≤ q.Z) (hq1 : q.Z < (gElName.length : Int))
    (h : p.GetIsotope = q.GetIsotope) :
    (p.A = q.A ∧ p.Z = q.Z)
      ∧ gElName.Nodup
      ∧ (∀ el ∈ gElName, el.data.head?.map Char.isDigit = some false) := by
  refine ⟨?_, gElName_nodup, gElName_head_not_digit⟩
  obtain ⟨el₁, hel₁, hok₁⟩ := GetIsotope_of_lt p hp0 hp1
  obtain ⟨el₂, hel₂, hok₂⟩ := GetIsotope_of_lt q hq0 hq1
  rw [hok₁, hok₂, to_string_of_nonneg p.A (by omega), to_string_of_nonneg q.A (by omega)] at h
  have hdata := congrArg String.data (Outcome.ok.inj h)
  rw [String.data_append, String.data_append] at hdata
  have hn₁ := gElName_head_not_digit el₁ (List.get?_mem hel₁)
  have hn₂ := gElName_head_not_digit el₂ (List.get?_mem hel₂)
  obtain ⟨c₁, t₁, hd₁, hc₁⟩ : ∃ c t, el₁.data = c :: t ∧ c.isDigit = false := by
    cases hd : el₁.data with
    | nil => rw [hd] at hn₁; exact absurd hn₁ (by simp)
    | cons c t => rw [hd] at hn₁; exact ⟨c, t, rfl, by simpa using hn₁⟩
  obtain ⟨c₂, t₂, hd₂, hc₂⟩ : ∃ c t, el₂.data = c :: t ∧ c.isDigit = false := by
    cases hd : el₂.data with
    | nil => rw [hd] at hn₂; exact absurd hn₂ (by simp)
    | cons c t => rw [hd] at hn₂; exact ⟨c, t, rfl, by simpa using hn₂⟩
  rw [hd₁, hd₂] at hdata
  obtain ⟨hdig, hname⟩ := digits_append_inj _ _ c₁ c₂ t₁ t₂ (repr_isDigit _) (repr_isDigit _)
    hc₁ hc₂ hdata
  have hA : p.A.toNat = q.A.toNat := by
    rw [← foldl_repr p.A.toNat, ← foldl_repr q.A.toNat, hdig]
  have hel : el₁ = el₂ := by
    apply String.ext
    rw [hd₁, hd₂, hname]
  have hZ : p.Z.toNat = q.Z.toNat := by
    have hget : gElName[p.Z.toNat]? = gElName[q.Z.toNat]? := by
      rw [← List.get?_eq_getElem?, ← List.get?_eq_getElem?, hel₁, hel₂, hel]
    exact List.getElem?_inj (by omega) gElName_nodup hget
  constructor <;> omega

/-- Witness of C13: two particles labelled "4He". -/
theorem GetIsotope_injective_witness :
    (1 ≤ (helium4 ℚ).A ∧ 1 ≤ (helium4Fast ℚ).A)
      ∧ (0 ≤ (helium4 ℚ).Z ∧ (helium4 ℚ).Z < (gElName.length : Int))
      ∧ (0 ≤ (helium4Fast ℚ).Z ∧ (helium4Fast ℚ).Z < (gElName.length : Int))
      ∧ (helium4 ℚ).GetIsotope = (helium4Fast ℚ).GetIsotope
      ∧ (helium4 ℚ).A = (helium4Fast ℚ).A ∧ (helium4 ℚ).Z = (helium4Fast ℚ).Z :=
  have hpA : 1 ≤ (helium4 ℚ).A := by decide
  have hqA : 1 ≤ (helium4Fast ℚ).A := by decide
  have hp0 : 0 ≤ (helium4 ℚ).Z := by decide
  have hp1 : (helium4 ℚ).Z < (gElName.length : Int) := by decide
  have hq0 : 0 ≤ (helium4Fast ℚ).Z := by decide
  have hq1 : (helium4Fast ℚ).Z < (gElName.length : Int) := by decide
  have h : (helium4 ℚ).GetIsotope = (helium4Fast ℚ).GetIsotope := rfl
  ⟨⟨hpA, hqA⟩, ⟨hp0, hp1⟩, ⟨hq0, hq1⟩, h,
    (GetIsotope_injective (helium4 ℚ) (helium4Fast ℚ) hpA hqA hp0 hp1 hq0 hq1 h).1⟩

/-! ## Totality of the accessors of `Particle` -/

/-- The atomic mass unit is not zero. -/
theorem u_mass_ne_zero : u_mass ℝ ≠ 0 := by
  unfold u_mass
  norm_num

/-- The division of `double`s by a divisor that is not zero. -/
theorem DoubleVal.div_eq_finite_iff (x y : ℝ) :
    DoubleVal.div x y = DoubleVal.finite (x / y) ↔ y ≠ 0 := by
  unfold DoubleVal.div
  by_cases h : y = 0
  · rw [if_pos h]
    exact ⟨fun h' => DoubleVal.noConfusion h', fun h' => absurd h h'⟩
  · rw [if_neg h]
    exact ⟨fun _ => h, fun _ => rfl⟩

/-- The square root of a `double` that is not negative. -/
theorem DoubleVal.sqrt_eq_finite_iff (x : ℝ) :
    DoubleVal.sqrt Real.sqrt x = DoubleVal.finite (Real.sqrt x) ↔ 0 ≤ x := by
  unfold DoubleVal.sqrt
  by_cases h : x < 0
  · rw [if_pos h]
    exact ⟨fun h' => DoubleVal.noConfusion h', fun h' => absurd h (not_lt.mpr h')⟩
  · rw [if_neg h]
    exact ⟨fun _ => not_lt.mp h, fun _ => rfl⟩

/-- C14, as stated, fails: each of these particles has `A >= 1` and
`0 <= Z <= A`, yet `GetIsotope()` throws for Z = 121, `GetGamma()` divides by
a mass of zero, `GetMomentumLab()` takes the square root of a negative number
for a negative laboratory energy, and `GetMomentumCM()` does so for a
centre-of-mass energy of zero. -/
theorem Particle_accessors_total_counterexample :
    (1 ≤ (element121 ℝ).A ∧ 0 ≤ (element121 ℝ).Z ∧ (element121 ℝ).Z ≤ (element121 ℝ).A
        ∧ (element121 ℝ).GetIsotope = Outcome.out_of_range)
      ∧ (1 ≤ (masslessProton ℝ).A ∧ 0 ≤ (masslessProton ℝ).Z
        ∧ (masslessProton ℝ).Z ≤ (masslessProton ℝ).A
        ∧ (masslessProton ℝ).GetGamma_double = DoubleVal.nonfinite)
      ∧ (1 ≤ (negativeEnergyProton ℝ).A ∧ 0 ≤ (negativeEnergyProton ℝ).Z
        ∧ (negativeEnergyProton ℝ).Z ≤ (negativeEnergyProton ℝ).A
        ∧ (negativeEnergyProton ℝ).GetMomentumLab_double Real.sqrt = DoubleVal.nonfinite)
      ∧ (1 ≤ (helium4 ℝ).A ∧ 0 ≤ (helium4 ℝ).Z ∧ (helium4 ℝ).Z ≤ (helium4 ℝ).A
        ∧ (helium4 ℝ).GetMomentumCM_double Real.sqrt = DoubleVal.nonfinite) := by
  refine ⟨⟨by decide, by decide, by decide, by decide⟩, ⟨by decide, by decide, by decide, ?_⟩,
    ⟨by decide, by decide, by decide, ?_⟩, ⟨by decide, by decide, by decide, ?_⟩⟩
  · have hM : (masslessProton ℝ).GetMass = 0 := by
      rw [masslessProton, GetMass_mkParticle_one_one]
      norm_num
    unfold Particle.GetGamma_double DoubleVal.div
    rw [if_pos hM]
  · have hM : (negativeEnergyProton ℝ).GetMass = 938272.08816 := by
      rw [negativeEnergyProton, GetMass_mkParticle_one_one]
      norm_num
    have hE : (negativeEnergyProton ℝ).GetEnergyLab = -1 := rfl
    have hneg : (negativeEnergyProton ℝ).GetEnergyTotLab ^ 2
        - (negativeEnergyProton ℝ).GetMass ^ 2 < 0 := by
      rw [Particle.GetEnergyTotLab, hM, hE]
      norm_num
    unfold Particle.GetMomentumLab_double DoubleVal.sqrt
    rw [if_pos hneg]
  · have hM : (helium4 ℝ).GetMass = 3727379.35736 := by
      simp [helium4, mkParticle, Particle.GetMass, Particle.GetN, Particle.GetZ,
        Particle.GetA, p_mass, n_mass]
      norm_num
    have hE : (helium4 ℝ).GetEnergyTotCM = 0 := rfl
    have hneg : (helium4 ℝ).GetEnergyTotCM ^ 2 - (helium4 ℝ).GetMass ^ 2 < 0 := by
      rw [hM, hE]
      norm_num
    unfold Particle.GetMomentumCM_double DoubleVal.sqrt
    rw [if_pos hneg]

/-- C14, amended: for every particle with `A >= 1` and `0 <= Z <= A`,
`GetMass_u()` never divides by zero; `GetIsotope()` returns a label when
`Z < gElName.size()`; `GetGamma()` divides by a number other than zero exactly
when `GetMass()` is not zero; `GetMomentumLab()` and `GetMomentumCM()` take
the square root of a number that is not negative exactly when the square of
`GetMass()` is at most that of `GetEnergyTotLab()`, respectively
`GetEnergyTotCM()`. -/
theorem Particle_accessors_total (p : Particle ℝ) (_hA : 1 ≤ p.A) (hZ : 0 ≤ p.Z)
    (_hZA : p.Z ≤ p.A) :
    p.GetMass_u_double = DoubleVal.finite p.GetMass_u
      ∧ (p.Z < (gElName.length : Int) →
          ∃ el, gElName.get? p.Z.toNat = some el
            ∧ p.GetIsotope = Outcome.ok (to_string p.A ++ el))
      ∧ (p.GetGamma_double = DoubleVal.finite p.GetGamma ↔ p.GetMass ≠ 0)
      ∧ (p.GetMomentumLab_double Real.sqrt = DoubleVal.finite (p.GetMomentumLab Real.sqrt)
          ↔ p.GetMass ^ 2 ≤ p.GetEnergyTotLab ^ 2)
      ∧ (p.GetMomentumCM_double Real.sqrt = DoubleVal.finite (p.GetMomentumCM Real.sqrt)
          ↔ p.GetMass ^ 2 ≤ p.GetEnergyTotCM ^ 2) := by
  refine ⟨?_, fun h => GetIsotope_of_lt p hZ h, ?_, ?_, ?_⟩
  · exact (DoubleVal.div_eq_finite_iff _ _).mpr u_mass_ne_zero
  · exact DoubleVal.div_eq_finite_iff _ _
  · unfold Particle.GetMomentumLab_double Particle.GetMomentumLab
    rw [DoubleVal.sqrt_eq_finite_iff, sub_nonneg]
  · unfold Particle.GetMomentumCM_double Particle.GetMomentumCM
    rw [DoubleVal.sqrt_eq_finite_iff, sub_nonneg]

/-- Witness of C14 amended: 4He with a laboratory energy of 20000 keV. -/
theorem Particle_accessors_total_witness :
    1 ≤ (helium4Fast ℝ).A ∧ 0 ≤ (helium4Fast ℝ).Z ∧ (helium4Fast ℝ).Z ≤ (helium4Fast ℝ).A
      ∧ (helium4Fast ℝ).GetMass_u_double = DoubleVal.finite (helium4Fast ℝ).GetMass_u :=
  ⟨by decide, by decide, by decide,
    (Particle_accessors_total (helium4Fast ℝ) (by decide) (by decide) (by decide)).1⟩

/-! ## Neutron number, mass in u and kinematics of a particle -/

/-- The mass of 4He with the binding energy 7073.915 keV per nucleon. -/
theorem GetMass_mkParticle_four_two (e : ℝ) :
    (mkParticle 4 2 7073.915 e).GetMass = 3727379.35736 := by
  simp [mkParticle, Particle.GetMass, Particle.GetN, Particle.GetZ, Particle.GetA, p_mass,
    n_mass]
  norm_num

/-- C15: for `A >= 1` and `0 <= Z <= A`, `GetN()` is `A - Z` and `GetMass_u()`
is `GetMass() / u_mass` with `u_mass = 931494.10242`. -/
theorem GetN_GetMass_u_formula (p : Particle ℝ) (_hA : 1 ≤ p.A) (_hZ : 0 ≤ p.Z)
    (_hZA : p.Z ≤ p.A) :
    p.GetN = p.A - p.Z ∧ p.GetMass_u = p.GetMass / 931494.10242 :=
  ⟨rfl, rfl⟩

/-- Witness of C15: 4He has two neutrons and a mass of
3727379.35736 / 931494.10242 u. -/
theorem GetN_GetMass_u_formula_witness :
    1 ≤ (helium4 ℝ).A ∧ 0 ≤ (helium4 ℝ).Z ∧ (helium4 ℝ).Z ≤ (helium4 ℝ).A
      ∧ (helium4 ℝ).GetN = 2 ∧ (helium4 ℝ).GetMass_u = 3727379.35736 / 931494.10242 :=
  have h := GetN_GetMass_u_formula (helium4 ℝ) (by decide) (by decide) (by decide)
  ⟨by decide, by decide, by decide, by rw [h.1]; decide,
    by rw [h.2, helium4, GetMass_mkParticle_four_two]⟩

/-- C18: for a particle of mass `M > 0` and laboratory energy `Elab >= 0`,
`GetEnergyTotLab()` is `M + Elab`, the squares of `GetMomentumLab()` and `M`
add up to that of `GetEnergyTotLab()`, `GetGamma()` is `1 + Elab/M` and at
least 1, `GetMomentumLab()` is 0 exactly when `Elab` is 0, and the squares of
`GetMomentumCM()` and `M` add up to that of `GetEnergyTotCM()` whenever
`GetEnergyTotCM() >= M`. -/
theorem Particle_kinematics (p : Particle ℝ) (hM : 0 < p.GetMass) (hE : 0 ≤ p.GetEnergyLab) :
    p.GetEnergyTotLab = p.GetMass + p.GetEnergyLab
      ∧ p.GetMomentumLab Real.sqrt ^ 2 + p.GetMass ^ 2 = p.GetEnergyTotLab ^ 2
      ∧ p.GetGamma = 1 + p.GetEnergyLab / p.GetMass
      ∧ 1 ≤ p.GetGamma
      ∧ (p.GetMomentumLab Real.sqrt = 0 ↔ p.GetEnergyLab = 0)
      ∧ (p.GetMass ≤ p.GetEnergyTotCM →
          p.GetMomentumCM Real.sqrt ^ 2 + p.GetMass ^ 2 = p.GetEnergyTotCM ^ 2) := by
  have hrad : p.GetEnergyTotLab ^ 2 - p.GetMass ^ 2
      = p.GetEnergyLab * (2 * p.GetMass + p.GetEnergyLab) := by
    unfold Particle.GetEnergyTotLab
    ring
  have hnonneg : 0 ≤ p.GetEnergyTotLab ^ 2 - p.GetMass ^ 2 := by
    rw [hrad]
    positivity
  have hgamma : p.GetGamma = 1 + p.GetEnergyLab / p.GetMass := by
    unfold Particle.GetGamma Particle.GetEnergyTotLab
    field_simp
  refine ⟨rfl, ?_, hgamma, ?_, ?_, ?_⟩
  · unfold Particle.GetMomentumLab
    rw [Real.sq_sqrt hnonneg]
    ring
  · rw [hgamma]
    have : 0 ≤ p.GetEnergyLab / p.GetMass := div_nonneg hE hM.le
    linarith
  · unfold Particle.GetMomentumLab
    rw [Real.sqrt_eq_zero hnonneg, hrad]
    constructor
    · intro h
      rcases mul_eq_zero.mp h with h | h
      · exact h
      · linarith
    · intro h
      rw [h, zero_mul]
  · intro hcm
    have h0 : 0 ≤ p.GetEnergyTotCM ^ 2 - p.GetMass ^ 2 := by nlinarith
    unfold Particle.GetMomentumCM
    rw [Real.sq_sqrt h0]
    ring

/-- Witness of C18: 4He with a laboratory energy of 20000 keV. -/
theorem Particle_kinematics_witness :
    0 < (helium4Fast ℝ).GetMass ∧ 0 ≤ (helium4Fast ℝ).GetEnergyLab
      ∧ (helium4Fast ℝ).GetEnergyTotLab = 3747379.35736
      ∧ (helium4Fast ℝ).GetMomentumLab Real.sqrt ^ 2 + (helium4Fast ℝ).GetMass ^ 2
        = (helium4Fast ℝ).GetEnergyTotLab ^ 2 :=
  have hM : 0 < (helium4Fast ℝ).GetMass := by
    rw [helium4Fast, GetMass_mkParticle_four_two]
    norm_num
  have hE : 0 ≤ (helium4Fast ℝ).GetEnergyLab := by
    simp only [helium4Fast, mkParticle, Particle.GetEnergyLab]
    norm_num
  have h := Particle_kinematics (helium4Fast ℝ) hM hE
  ⟨hM, hE, by
    rw [h.1, helium4Fast, GetMass_mkParticle_four_two]
    simp only [mkParticle, Particle.GetEnergyLab]
    norm_num, h.2.1⟩

/-! ## CD vectors -/

/-- The distance lookup returns the entry, or 0 past the end. -/
theorem GetCDDistance_eq_getD {K : Type} [Field K] (r : Reaction K) (det : Nat) :
    r.GetCDDistance det = Outcome.ok (r.cd_dist.getD det 0) := by
  unfold Reaction.GetCDDistance
  by_cases h : det < r.cd_dist.length
  · rw [if_pos h, vectorAt_of_lt _ _ h, List.getD_eq_getElem _ _ h]
    rfl
  · rw [if_neg h, List.getD_eq_default _ _ (not_lt.mp h)]

/-- The phi offset lookup returns the entry, or 0 past the end. -/
theorem GetCDPhiOffset_eq_getD {K : Type} [Field K] (r : Reaction K) (det : Nat) :
    r.GetCDPhiOffset det = Outcome.ok (r.cd_offset.getD det 0) := by
  unfold Reaction.GetCDPhiOffset
  by_cases h : det < r.cd_offset.length
  · rw [if_pos h, vectorAt_of_lt _ _ h, List.getD_eq_getElem _ _ h]
    rfl
  · rw [if_neg h, List.getD_eq_default _ _ (not_lt.mp h)]

/-- The modelled `GetCDVector` always returns. -/
theorem GetCDVector_eq {K : Type} [Field K] (cdGeometry : K → K → Nat → Nat → Nat → TVector3 K)
    (r : Reaction K) (det sec pid nid : Nat) :
    r.GetCDVector cdGeometry det sec pid nid
      = Outcome.ok (cdGeometry (r.cd_dist.getD det 0) (r.cd_offset.getD det 0) sec pid nid) := by
  unfold Reaction.GetCDVector
  rw [GetCDDistance_eq_getD, GetCDPhiOffset_eq_getD]
  rfl

/-- C16: for all indices, `GetParticleVector` and `GetCDVector` both return
and their difference is the opposite of the target offset vector
`(x_offset, y_offset, z_offset)`. -/
theorem GetParticleVector_sub_GetCDVector {K : Type} [Field K]
    (cdGeometry : K → K → Nat → Nat → Nat → TVector3 K) (r : Reaction K)
    (det sec pid nid : Nat) :
    ∃ cd part, r.GetCDVector cdGeometry det sec pid nid = Outcome.ok cd
      ∧ r.GetParticleVector cdGeometry det sec pid nid = Outcome.ok part
      ∧ part.sub cd = r.targetOffset.neg
      ∧ r.targetOffset = { X := r.x_offset, Y := r.y_offset, Z := r.z_offset } := by
  refine ⟨cdGeometry (r.cd_dist.getD det 0) (r.cd_offset.getD det 0) sec pid nid,
    (cdGeometry (r.cd_dist.getD det 0) (r.cd_offset.getD det 0) sec pid nid).sub r.targetOffset,
    GetCDVector_eq cdGeometry r det sec pid nid, ?_, ?_, rfl⟩
  · unfold Reaction.GetParticleVector
    rw [GetCDVector_eq]
    rfl
  · simp [TVector3.sub, TVector3.neg]

/-- The modelled CD vectors evaluated: detector 1, strip 2 of the reaction
with two detectors and offsets (1, 2, 3). -/
theorem GetParticleVector_twoByThree :
    (twoByThree ℚ).GetCDVector (flatGeometry ℚ) 1 0 2 0
        = Outcome.ok { X := 2, Y := 0.5, Z := 32 }
      ∧ (twoByThree ℚ).GetParticleVector (flatGeometry ℚ) 1 0 2 0
        = Outcome.ok { X := 1, Y := -1.5, Z := 29 } := by
  constructor
  · rw [GetCDVector_eq]
    simp [twoByThree, twoCDs, flatGeometry]
  · unfold Reaction.GetParticleVector
    rw [GetCDVector_eq]
    simp [twoByThree, twoCDs, flatGeometry, Outcome.map, TVector3.sub, Reaction.targetOffset]
    norm_num

/-! ## The list of particle angles -/

/-- A counted loop whose bound fits the counter and whose body always returns
ends, given enough fuel, with the bodies applied in increasing order. -/
theorem forUChar_of_total {σ : Type} (n : Nat) (hn : n < 256)
    (body : Nat → σ → Option (Outcome σ)) (f : Nat → σ → σ)
    (hbody : ∀ i s, i < n → body i s = some (Outcome.ok (f i s))) :
    ∀ (fuel i : Nat) (s : σ), i ≤ n → n - i < fuel →
      forUChar n body fuel i s
        = some (Outcome.ok ((List.range' i (n - i)).foldl (fun s k => f k s) s)) := by
  intro fuel
  induction fuel with
  | zero => intro i s _ h; omega
  | succ fuel ih =>
    intro i s hi hfuel
    unfold forUChar
    by_cases h : i < n
    · have hmod : (i + 1) % 256 = i + 1 := Nat.mod_eq_of_lt (by omega)
      have hlen : n - i = (n - (i + 1)) + 1 := by omega
      rw [if_pos h, hbody i s h, hmod]
      simp only
      rw [ih (i + 1) (f i s) (by omega) (by omega), hlen, List.range'_succ, List.foldl_cons]
    · have h0 : n - i = 0 := by omega
      rw [if_neg h, h0]
      rfl

/-- Pushing one value per index onto a list maps the indices. -/
theorem foldl_push_eq_map {α : Type} (g : Nat → α) (l : List Nat) (acc : List α) :
    l.foldl (fun acc j => acc ++ [g j]) acc = acc ++ l.map g := by
  induction l generalizing acc with
  | nil => simp
  | cons j l ih => rw [List.foldl_cons, ih, List.map_cons, List.append_assoc]; rfl

/-- The list that appending `m` values per index `i < d` builds has `d * m`
entries, the entry at `i * m + j` being the `j`-th value appended for `i`. -/
theorem foldl_rows {α : Type} (g : Nat → Nat → α) (m : Nat) :
    ∀ d : Nat,
      ((List.range d).foldl (fun acc i => acc ++ (List.range m).map (g i)) []).length = d * m
      ∧ ∀ i j, i < d → j < m →
          ((List.range d).foldl (fun acc i => acc ++ (List.range m).map (g i)) []).get?
            (i * m + j) = some (g i j) := by
  intro d
  induction d with
  | zero => exact ⟨by simp, fun i j hi _ => absurd hi (Nat.not_lt_zero i)⟩
  | succ d ih =>
    obtain ⟨hlen, hget⟩ := ih
    rw [List.range_succ, List.foldl_append, List.foldl_cons, List.foldl_nil]
    constructor
    · rw [List.length_append, hlen, List.length_map, List.length_range]
      ring
    · intro i j hi hj
      simp only [List.get?_eq_getElem?] at hget ⊢
      by_cases hid : i < d
      · have hlt : i * m + j < d * m := by
          calc i * m + j < i * m + m := by omega
            _ = (i + 1) * m := by ring
            _ ≤ d * m := Nat.mul_le_mul_right m hid
        rw [List.getElem?_append_left (by rw [hlen]; exact hlt)]
        exact hget i j hid hj
      · have hi' : i = d := by omega
        subst hi'
        rw [List.getElem?_append_right (by rw [hlen]; omega), hlen, Nat.add_sub_cancel_left,
          List.getElem?_map, List.getElem?_range hj]
        rfl
/-- C17: with detector and strip counts that fit the `unsigned char` loop
counters, `GetNumberOfParticleThetas()` is the strip count times the
detector count, and with enough fuel `GetParticleThetas()` builds a list of
that length whose entry at `i * nStrip + j` is `GetCDVector(i,0,j,0).Theta()`
times `RadToDeg`; the list is a function of the reaction alone. -/
theorem GetParticleThetas_layout {K : Type} [Field K]
    (cdGeometry : K → K → Nat → Nat → Nat → TVector3 K) (Theta : TVector3 K → K)
    (RadToDeg : K) (r : Reaction K) (hDet : r.set.GetNumberOfCDDetectors < 256)
    (hStrip : r.set.GetNumberOfCDPStrips < 256) :
    r.GetNumberOfParticleThetas
        = r.set.GetNumberOfCDPStrips * r.set.GetNumberOfCDDetectors
      ∧ ∀ fuel, 256 ≤ fuel → ∃ cd_angles,
          r.GetParticleThetas cdGeometry Theta RadToDeg fuel = some (Outcome.ok cd_angles)
          ∧ cd_angles.length = r.set.GetNumberOfCDPStrips * r.set.GetNumberOfCDDetectors
          ∧ ∀ i j, i < r.set.GetNumberOfCDDetectors → j < r.set.GetNumberOfCDPStrips →
              ∃ vec, r.GetCDVector cdGeometry i 0 j 0 = Outcome.ok vec
                ∧ cd_angles.get? (i * r.set.GetNumberOfCDPStrips + j)
                  = some (Theta vec * RadToDeg) := by
  constructor
  · unfold Reaction.GetNumberOfParticleThetas
    apply Nat.mod_eq_of_lt
    calc r.set.GetNumberOfCDPStrips * r.set.GetNumberOfCDDetectors
        ≤ 255 * 255 := Nat.mul_le_mul (by omega) (by omega)
      _ < 2 ^ 32 := by norm_num
  · intro fuel hfuel
    have hinner : ∀ i acc, i < r.set.GetNumberOfCDDetectors →
        forUChar r.set.GetNumberOfCDPStrips
          (fun j cd_angles =>
            some ((r.GetCDVector cdGeometry i 0 j 0).map
              (fun vec => cd_angles ++ [Theta vec * RadToDeg])))
          fuel 0 acc
          = some (Outcome.ok (acc ++ (List.range r.set.GetNumberOfCDPStrips).map
              (fun j => Theta (cdGeometry (r.cd_dist.getD i 0) (r.cd_offset.getD i 0) 0 j 0)
                * RadToDeg))) := by
      intro i acc _
      rw [forUChar_of_total r.set.GetNumberOfCDPStrips hStrip _
        (fun j cd_angles => cd_angles
          ++ [Theta (cdGeometry (r.cd_dist.getD i 0) (r.cd_offset.getD i 0) 0 j 0) * RadToDeg])
        (fun j s _ => by rw [GetCDVector_eq]; rfl) fuel 0 acc (Nat.zero_le _) (by omega),
        Nat.sub_zero, ← List.range_eq_range', foldl_push_eq_map]
    have houter := forUChar_of_total r.set.GetNumberOfCDDetectors hDet _
      (fun i cd_angles => cd_angles ++ (List.range r.set.GetNumberOfCDPStrips).map
        (fun j => Theta (cdGeometry (r.cd_dist.getD i 0) (r.cd_offset.getD i 0) 0 j 0)
          * RadToDeg))
      (fun i s hi => hinner i s hi) fuel 0 [] (Nat.zero_le _) (by omega)
    rw [Nat.sub_zero, ← List.range_eq_range'] at houter
    obtain ⟨hlen, hget⟩ := foldl_rows
      (fun i j => Theta (cdGeometry (r.cd_dist.getD i 0) (r.cd_offset.getD i 0) 0 j 0)
        * RadToDeg) r.set.GetNumberOfCDPStrips r.set.GetNumberOfCDDetectors
    refine ⟨_, houter, ?_, ?_⟩
    · rw [hlen, Nat.mul_comm]
    · intro i j hi hj
      exact ⟨_, GetCDVector_eq cdGeometry r i 0 j 0, hget i j hi hj⟩

/-- Witness of C17: two detectors of three strips give six angles. -/
theorem GetParticleThetas_layout_witness :
    (twoByThree ℚ).set.GetNumberOfCDDetectors < 256
      ∧ (twoByThree ℚ).set.GetNumberOfCDPStrips < 256
      ∧ (twoByThree ℚ).GetNumberOfParticleThetas = 6
      ∧ ∃ cd_angles,
          (twoByThree ℚ).GetParticleThetas (flatGeometry ℚ) TVector3.X 2 256
            = some (Outcome.ok cd_angles)
          ∧ cd_angles.length = 6 :=
  have hDet : (twoByThree ℚ).set.GetNumberOfCDDetectors < 256 := by decide
  have hStrip : (twoByThree ℚ).set.GetNumberOfCDPStrips < 256 := by decide
  have h := GetParticleThetas_layout (flatGeometry ℚ) TVector3.X 2 (twoByThree ℚ) hDet hStrip
  ⟨hDet, hStrip, h.1, by
    obtain ⟨cd_angles, hrun, hlen, -⟩ := h.2 256 (le_refl _)
    exact ⟨cd_angles, hrun, hlen⟩⟩

/-- The list of angles evaluated: two detectors of three strips, the x
component standing for `Theta` and 2 for `RadToDeg`. -/
theorem GetParticleThetas_twoByThree :
    (twoByThree ℚ).GetParticleThetas (flatGeometry ℚ) TVector3.X 2 4
      = some (Outcome.ok [0, 2, 4, 0, 2, 4]) := by
  simp [Reaction.GetParticleThetas, forUChar, twoByThree, twoCDs, Reaction.GetCDVector,
    Reaction.GetCDDistance, Reaction.GetCDPhiOffset, Outcome.vectorAt, Outcome.bind,
    Outcome.map, flatGeometry]
  norm_num

/-! ## Setters -/

/-- A kinematic setter leaves the mass unchanged. -/
theorem KinematicSetter.apply_GetMass {K : Type} [Field K] (s : KinematicSetter K)
    (p : Particle K) : (s.apply p).GetMass = p.GetMass := by
  cases s <;> rfl

/-- A kinematic setter on one of the four particles leaves the Q-value
unchanged. -/
theorem applySetter_GetQvalue {K : Type} [Field K] (r : Reaction K) (role : Role)
    (s : KinematicSetter K) : (r.applySetter role s).GetQvalue = r.GetQvalue := by
  cases role <;>
    simp only [Reaction.applySetter, Reaction.GetQvalue, KinematicSetter.apply_GetMass]

/-- A sequence of kinematic setters leaves the Q-value unchanged. -/
theorem applySetters_GetQvalue {K : Type} [Field K] (calls : List (Role × KinematicSetter K)) :
    ∀ r : Reaction K, (r.applySetters calls).GetQvalue = r.GetQvalue := by
  induction calls with
  | nil => intro r; rfl
  | cons call calls ih =>
    intro r
    unfold Reaction.applySetters
    rw [List.foldl_cons]
    exact (ih (r.applySetter call.1 call.2)).trans (applySetter_GetQvalue r call.1 call.2)

/-- C19: each setter of `Particle` stores its argument in its own member and
leaves the seven others as they were, and the matching getter returns the
argument; the five kinematic setters leave `GetA`, `GetZ`, `GetN`,
`GetBindingEnergy`, `GetMass`, `GetMass_u` and `GetIsotope` unchanged, and
`GetQvalue()` is the same after any sequence of them on the four particles
of a reaction. -/
theorem Particle_setters_frame {K : Type} [Field K] (p : Particle K) (n : Int) (v : K) :
    (p.SetA n =
          { A := n, Z := p.Z, bindingE := p.bindingE, Ecm_tot := p.Ecm_tot,
            Elab := p.Elab, ThetaCM := p.ThetaCM, ThetaLab := p.ThetaLab, Ex := p.Ex }
        ∧ (p.SetA n).GetA = n)
      ∧ (p.SetZ n =
          { A := p.A, Z := n, bindingE := p.bindingE, Ecm_tot := p.Ecm_tot,
            Elab := p.Elab, ThetaCM := p.ThetaCM, ThetaLab := p.ThetaLab, Ex := p.Ex }
        ∧ (p.SetZ n).GetZ = n)
      ∧ (p.SetBindingEnergy v =
          { A := p.A, Z := p.Z, bindingE := v, Ecm_tot := p.Ecm_tot,
            Elab := p.Elab, ThetaCM := p.ThetaCM, ThetaLab := p.ThetaLab, Ex := p.Ex }
        ∧ (p.SetBindingEnergy v).GetBindingEnergy = v)
      ∧ (p.SetEnergyLab v =
          { A := p.A, Z := p.Z, bindingE := p.bindingE, Ecm_tot := p.Ecm_tot,
            Elab := v, ThetaCM := p.ThetaCM, ThetaLab := p.ThetaLab, Ex := p.Ex }
        ∧ (p.SetEnergyLab v).GetEnergyLab = v)
      ∧ (p.SetEnergyTotCM v =
          { A := p.A, Z := p.Z, bindingE := p.bindingE, Ecm_tot := v,
            Elab := p.Elab, ThetaCM := p.ThetaCM, ThetaLab := p.ThetaLab, Ex := p.Ex }
        ∧ (p.SetEnergyTotCM v).GetEnergyTotCM = v)
      ∧ (p.SetThetaCM v =
          { A := p.A, Z := p.Z, bindingE := p.bindingE, Ecm_tot := p.Ecm_tot,
            Elab := p.Elab, ThetaCM := v, ThetaLab := p.ThetaLab, Ex := p.Ex }
        ∧ (p.SetThetaCM v).GetThetaCM = v)
      ∧ (p.SetThetaLab v =
          { A := p.A, Z := p.Z, bindingE := p.bindingE, Ecm_tot := p.Ecm_tot,
            Elab := p.Elab, ThetaCM := p.ThetaCM, ThetaLab := v, Ex := p.Ex }
        ∧ (p.SetThetaLab v).GetThetaLab = v)
      ∧ (p.SetEx v =
          { A := p.A, Z := p.Z, bindingE := p.bindingE, Ecm_tot := p.Ecm_tot,
            Elab := p.Elab, ThetaCM := p.ThetaCM, ThetaLab := p.ThetaLab, Ex := v }
        ∧ (p.SetEx v).GetEx = v)
      ∧ (∀ s : KinematicSetter K,
          (s.apply p).GetA = p.GetA ∧ (s.apply p).GetZ = p.GetZ ∧ (s.apply p).GetN = p.GetN
          ∧ (s.apply p).GetBindingEnergy = p.GetBindingEnergy
          ∧ (s.apply p).GetMass = p.GetMass ∧ (s.apply p).GetMass_u = p.GetMass_u
          ∧ (s.apply p).GetIsotope = p.GetIsotope)
      ∧ (∀ (r : Reaction K) (calls : List (Role × KinematicSetter K)),
          (r.applySetters calls).GetQvalue = r.GetQvalue) := by
  refine ⟨⟨rfl, rfl⟩, ⟨rfl, rfl⟩, ⟨rfl, rfl⟩, ⟨rfl, rfl⟩, ⟨rfl, rfl⟩, ⟨rfl, rfl⟩, ⟨rfl, rfl⟩,
    ⟨rfl, rfl⟩, ?_, fun r calls => applySetters_GetQvalue calls r⟩
  intro s
  cases s <;> exact ⟨rfl, rfl, rfl, rfl, rfl, rfl, rfl⟩

/-- The setters evaluated: a new laboratory energy on the beam of an elastic
reaction changes `GetEnergyLab` and leaves the Q-value at 0. -/
theorem applySetters_elasticAlphaCarbon :
    ((elasticAlphaCarbon ℚ).applySetters
        [(Role.Beam, KinematicSetter.SetEnergyLab 5), (Role.Recoil, KinematicSetter.SetEx 7)]
      ).Beam.GetEnergyLab = 5
      ∧ ((elasticAlphaCarbon ℚ).applySetters
        [(Role.Beam, KinematicSetter.SetEnergyLab 5), (Role.Recoil, KinematicSetter.SetEx 7)]
      ).GetQvalue = 0 := by
  constructor
  · rfl
  · rw [applySetters_GetQvalue]
    simp [elasticAlphaCarbon, mkReaction, Reaction.GetQvalue, helium4, helium4Fast, mkParticle,
      Particle.GetMass, Particle.GetN, Particle.GetZ, Particle.GetA]

/-! ## Q-value and nucleon conservation -/

/-- C20: when the mass numbers and the atomic numbers of Beam and Target add up
to those of Ejectile and Recoil, `GetQvalue()` is the binding energy of the
exit channel minus that of the entrance channel, each `A` times the binding
energy per nucleon; for elastic scattering it is 0. -/
theorem GetQvalue_binding_energies (r : Reaction ℝ)
    (hA : r.Beam.GetA + r.Target.GetA = r.Ejectile.GetA + r.Recoil.GetA)
    (hZ : r.Beam.GetZ + r.Target.GetZ = r.Ejectile.GetZ + r.Recoil.GetZ) :
    r.GetQvalue
        = (r.Ejectile.GetA : ℝ) * r.Ejectile.GetBindingEnergy
          + (r.Recoil.GetA : ℝ) * r.Recoil.GetBindingEnergy
          - (r.Beam.GetA : ℝ) * r.Beam.GetBindingEnergy
          - (r.Target.GetA : ℝ) * r.Target.GetBindingEnergy
      ∧ (r.Ejectile.GetA = r.Beam.GetA ∧ r.Ejectile.GetZ = r.Beam.GetZ
          ∧ r.Ejectile.GetBindingEnergy = r.Beam.GetBindingEnergy
          ∧ r.Recoil.GetA = r.Target.GetA ∧ r.Recoil.GetZ = r.Target.GetZ
          ∧ r.Recoil.GetBindingEnergy = r.Target.GetBindingEnergy →
        r.GetQvalue = 0) := by
  have hA' : (r.Beam.GetA : ℝ) + r.Target.GetA = r.Ejectile.GetA + r.Recoil.GetA := by
    exact_mod_cast hA
  have hZ' : (r.Beam.GetZ : ℝ) + r.Target.GetZ = r.Ejectile.GetZ + r.Recoil.GetZ := by
    exact_mod_cast hZ
  have hQ : r.GetQvalue
      = (r.Ejectile.GetA : ℝ) * r.Ejectile.GetBindingEnergy
        + (r.Recoil.GetA : ℝ) * r.Recoil.GetBindingEnergy
        - (r.Beam.GetA : ℝ) * r.Beam.GetBindingEnergy
        - (r.Target.GetA : ℝ) * r.Target.GetBindingEnergy := by
    simp only [Reaction.GetQvalue, Particle.GetMass, Particle.GetN, Particle.GetA,
      Particle.GetZ, Particle.GetBindingEnergy] at hA' hZ' ⊢
    push_cast
    linear_combination (n_mass ℝ) * hA' + (p_mass ℝ - n_mass ℝ) * hZ'
  refine ⟨hQ, ?_⟩
  rintro ⟨h1, -, h3, h4, -, h6⟩
  rw [hQ, h1, h3, h4, h6]
  ring

/-- Witness of C20: elastic scattering of 4He on 12C has Q-value 0. -/
theorem GetQvalue_binding_energies_witness :
    (elasticAlphaCarbon ℝ).Beam.GetA + (elasticAlphaCarbon ℝ).Target.GetA
        = (elasticAlphaCarbon ℝ).Ejectile.GetA + (elasticAlphaCarbon ℝ).Recoil.GetA
      ∧ (elasticAlphaCarbon ℝ).Beam.GetZ + (elasticAlphaCarbon ℝ).Target.GetZ
        = (elasticAlphaCarbon ℝ).Ejectile.GetZ + (elasticAlphaCarbon ℝ).Recoil.GetZ
      ∧ (elasticAlphaCarbon ℝ).GetQvalue = 0 :=
  ⟨by decide, by decide,
    (GetQvalue_binding_energies (elasticAlphaCarbon ℝ) (by decide) (by decide)).2
      ⟨rfl, rfl, rfl, rfl, rfl, rfl⟩⟩

end MiniballSort
